import Mathlib

/-!
Shallow embedding of rasa/core/policies/sklearn_policy.py (class SklearnPolicy).

Modelling conventions:
* numeric feature values and probabilities are modelled as rationals; the
  policy code performs no arithmetic on them (it only rearranges, pads with
  the constant -1, and zero-fills), so the floating-point representation is
  immaterial to the claims;
* a per-turn feature vector (numpy array of shape (1, w) or (w,)) is
  modelled by its flat contents, a list of rationals; its width is the
  numpy shape[-1];
* fallible Python code (IndexError, ValueError, OSError, AssertionError)
  is modelled with Except; the error names follow the spec's taxonomy,
  each constructor's comment records the concrete Python exception it
  abstracts;
* sklearn estimators, the tracker featurizer and GridSearchCV are external
  collaborators: they are modelled as records of opaque functions, and the
  featurizer's own persist/load contract is taken to be faithful.
-/

/-- Error taxonomy of the spec, mapped to the Python exceptions the code
actually raises at the corresponding program points. -/
inductive PolicyError where
  /-- IndexError from state_features[0] when the per-turn list is empty
      (spec name: InvalidFeatureShapeError). -/
  | invalidFeatureShape
  /-- ValueError from LabelEncoder.inverse_transform on a code outside the
      fitted classes (spec name: UnknownLabelError). -/
  | unknownLabel
  /-- IndexError from the assignment y_filled[i] = pred when a decoded label
      is outside the action space. -/
  | indexOutOfRange
  /-- IndexError from y_proba[0] when the probability batch is empty. -/
  | emptyPrediction
  /-- ValueError on an empty training batch: raised by max() on an empty
      sequence in _get_max_dialogue_length when max_history is falsy, and
      by np.vstack on an empty list in _collect_features otherwise. -/
  | emptyBatch
  /-- OSError raised by load when the given directory does not exist
      (spec name: PathNotFoundError). -/
  | pathNotFound
  /-- AssertionError raised by load when the reconstructed featurizer is not
      a MaxHistoryTrackerFeaturizer (spec name: FeaturizerTypeMismatchError). -/
  | featurizerTypeMismatch
  /-- AttributeError from calling estimator methods when self.model is None. -/
  | noModel
  deriving DecidableEq, Repr

/-- Domain collaborator: only num_actions is consumed by this core. -/
structure Domain where
  numActions : Nat
  deriving DecidableEq

/-- DialogueStateTracker is consumed opaquely; it only flows into the
featurizer's create_X. -/
structure Tracker where
  trackerId : Nat
  deriving DecidableEq

/-- One row of the featurizer's raw per-turn matrix: the code reads
column 2 (intent vector), column 6 (previous-action vector) and
column 8 (slot vector) of each turn. -/
structure TurnRow where
  intent : List ℚ
  prevAction : List ℚ
  slots : List ℚ
  deriving DecidableEq

/-- The featurizer output X: one list of turns per dialogue history. -/
abbrev RawBatch := List (List TurnRow)

/-- MaxHistoryTrackerFeaturizer collaborator: exposes max_history and
create_X; its persist/load contract is modelled as faithful. -/
structure Featurizer where
  maxHistory : Option Nat
  createX : Tracker → Domain → RawBatch

/-- An sklearn estimator, modelled by its predict_proba behaviour plus an
opaque record of constructor parameters. -/
structure SkModel where
  predictProba : List (List ℚ) → List (List ℚ)
  params : List (String × String)

/-- Translation of SklearnPolicy._default_model:
LogisticRegression(solver="liblinear", multi_class="auto"); its
prediction behaviour before fitting is irrelevant to every claim. -/
def defaultModel : SkModel :=
  { predictProba := fun _ => []
    params := [("solver", "liblinear"), ("multi_class", "auto")] }

/-- A hyperparameter grid, opaque to this core (passed through to
GridSearchCV). -/
abbrev ParamGrid := List (String × List String)

/-- The attributes of a SklearnPolicy instance set by its init method.
The label encoder is represented by the classes list of the fitted
sklearn LabelEncoder (the empty list standing for an unfitted encoder).
trainParams models the kwargs stored in the train-params attribute. -/
structure PolicyState where
  featurizer : Featurizer
  priority : Int
  model : Option SkModel
  paramGrid : Option ParamGrid
  cv : Option Nat
  scoring : String
  labelEncoder : List Nat
  shuffle : Bool
  trainParams : List (String × String)

/-- Translation of SklearnPolicy init: the model attribute is set to
(model or self._default_model()), so a falsy (None) model argument is
replaced by the default estimator and the stored model is always truthy. -/
def mkSklearnPolicy (featurizer : Featurizer) (priority : Int)
    (model : Option SkModel) (paramGrid : Option ParamGrid) (cv : Option Nat)
    (scoring : String) (labelEncoder : List Nat) (shuffle : Bool)
    (kwargs : List (String × String)) : PolicyState :=
  { featurizer := featurizer
    priority := priority
    model := some (model.getD defaultModel)
    paramGrid := paramGrid
    cv := cv
    scoring := scoring
    labelEncoder := labelEncoder
    shuffle := shuffle
    trainParams := kwargs }

/-- Translation of SklearnPolicy._fill_in_features.  When the list length
equals max_length the input is returned as is; otherwise the code reads
state_features[0].shape[-1] (raising IndexError on an empty list, the
spec's InvalidFeatureShapeError) and prepends (max_length - len) copies of
np.ones((1, w)) * -1.  Python list repetition with a negative count yields
the empty list, exactly as Nat subtraction truncates to zero here. -/
def fillInFeatures (stateFeatures : List (List ℚ)) (maxLength : Nat) :
    Except PolicyError (List (List ℚ)) :=
  if stateFeatures.length = maxLength then
    .ok stateFeatures
  else
    match stateFeatures with
    | [] => .error .invalidFeatureShape
    | v :: _ =>
      .ok (List.replicate (maxLength - stateFeatures.length)
            (List.replicate v.length (-1 : ℚ)) ++ stateFeatures)

/-- Translation of SklearnPolicy._get_max_dialogue_length: the maximum
number of turns over the histories of the batch (row[:, 2].shape[0] is the
turn count of a history).  Python max raises ValueError on an empty
sequence, so the empty batch is an error, never 0. -/
def getMaxDialogueLength (X : RawBatch) : Except PolicyError Nat :=
  match X with
  | [] => .error .emptyBatch
  | _ :: _ => .ok ((X.map (fun row => row.length)).foldr Nat.max 0)

/-- The effective padding length used by _collect_features:
self.featurizer.max_history or self._get_max_dialogue_length(X).
Python or falls through on falsy values, so both None and 0 select the
batch maximum, inheriting its empty-batch ValueError. -/
def effectiveMaxLength (maxHistory : Option Nat) (X : RawBatch) :
    Except PolicyError Nat :=
  match maxHistory with
  | some m => if m = 0 then getMaxDialogueLength X else .ok m
  | none => getMaxDialogueLength X

/-- Error-propagating map over a list, modelling a Python loop that
processes rows in order and lets the first exception escape. -/
def mapOk (f : α → Except PolicyError β) : List α → Except PolicyError (List β)
  | [] => .ok []
  | x :: xs => do
    let y ← f x
    let ys ← mapOk f xs
    pure (y :: ys)

/-- Translation of SklearnPolicy._collect_features.  For every history the
code pads the intent, previous-action and slot vector lists to the
effective length, flattens each (np.hstack; the np.expand_dims on slots
only normalises the numpy rank and is invisible on flat contents), and
stacks the rows of the three field matrices with np.vstack.  np.vstack
raises ValueError on an empty list, and the three per-field lists are
empty exactly when the batch is, so an empty batch is an error here even
when a truthy max_history skipped the max() call. -/
def collectFeatures (maxHistory : Option Nat) (X : RawBatch) :
    Except PolicyError (List (List ℚ) × List (List ℚ) × List (List ℚ)) := do
  let M ← effectiveMaxLength maxHistory X
  let rows ← mapOk (fun row => do
      let si ← fillInFeatures (row.map (fun t => t.intent)) M
      let sp ← fillInFeatures (row.map (fun t => t.prevAction)) M
      let ss ← fillInFeatures (row.map (fun t => t.slots)) M
      pure (si.flatten, sp.flatten, ss.flatten)) X
  match rows with
  | [] => .error .emptyBatch
  | _ :: _ =>
    pure (rows.map (fun r => r.1), rows.map (fun r => r.2.1),
          rows.map (fun r => r.2.2))

/-- Translation of SklearnPolicy._preprocess_data:
np.concatenate((X_intent, X_previous_action, X_slots), axis=-1), i.e. the
row-wise concatenation of the three field matrices. -/
def preprocessData (maxHistory : Option Nat) (X : RawBatch) :
    Except PolicyError (List (List ℚ)) := do
  let f ← collectFeatures maxHistory X
  pure (List.zipWith (fun a b => a ++ b)
          (List.zipWith (fun a b => a ++ b) f.1 f.2.1) f.2.2)

/-- Classes list of clone(label_encoder).fit(y): sklearn's LabelEncoder.fit
stores np.unique(y), the sorted list of distinct labels. -/
def fitLabelEncoder (y : List Nat) : List Nat :=
  (List.insertionSort (fun a b => a ≤ b) y).dedup

/-- LabelEncoder.transform for a single label: its position among the
fitted classes. -/
def transformLabel (classes : List Nat) (label : Nat) : Nat :=
  classes.indexOf label

/-- LabelEncoder.inverse_transform: maps each code to classes_[code],
raising ValueError when a code is outside the fitted range (the first
out-of-range code makes the whole call fail, which the all-check models
extensionally). -/
def inverseTransform (classes : List Nat) (codes : List Nat) :
    Except PolicyError (List Nat) :=
  if codes.all (fun c => c < classes.length) then
    .ok (codes.map (fun c => classes.getD c 0))
  else
    .error .unknownLabel

/-- The reconciliation loop of _postprocess_prediction: starting from
[0.0] * num_actions, write each predicted probability at its decoded
action index. -/
def yFilled (indices : List Nat) (yp : List ℚ) (numActions : Nat) : List ℚ :=
  (indices.zip yp).foldl (fun acc pr => acc.set pr.1 pr.2)
    (List.replicate numActions (0 : ℚ))

/-- Translation of SklearnPolicy._postprocess_prediction.  yp is the first
row of predict_proba's output (y_proba[0], IndexError when empty); the
indices are inverse_transform(arange(len(yp))); y_filled starts as
[0.0] * domain.num_actions and each assignment y_filled[i] = pred raises
IndexError when i is out of range, which the all-check models
extensionally (the first offending assignment aborts the call). -/
def postprocessPrediction (classes : List Nat) (yProba : List (List ℚ))
    (numActions : Nat) : Except PolicyError (List ℚ) :=
  match yProba with
  | [] => .error .emptyPrediction
  | yp :: _ => do
    let indices ← inverseTransform classes (List.range yp.length)
    if indices.all (fun i => i < numActions) then
      .ok (yFilled indices yp numActions)
    else
      .error .indexOutOfRange

/-- Translation of SklearnPolicy.predict_action_probabilities: featurize
the single tracker, preprocess, run the model's predict_proba and
reconcile against the full action space. -/
def predictActionProbabilities (p : PolicyState) (tracker : Tracker)
    (domain : Domain) : Except PolicyError (List ℚ) :=
  match p.model with
  | none => .error .noModel
  | some m => do
    let X := p.featurizer.createX tracker domain
    let Xt ← preprocessData p.featurizer.maxHistory X
    postprocessPrediction p.labelEncoder (m.predictProba Xt) domain.numActions

/-- Contents of sklearn_model.pkl: the _state dictionary, i.e. the
attributes listed in _pickle_params (model, cv, param_grid, scoring,
label_encoder). -/
structure PickledState where
  model : Option SkModel
  cv : Option Nat
  paramGrid : Option ParamGrid
  scoring : String
  labelEncoder : List Nat

/-- Everything SklearnPolicy.persist writes on its success branch: the
featurizer's own files, the sklearn_policy.json metadata (priority), and
the pickled _state blob. -/
structure PersistedArtifacts where
  featurizerFiles : Featurizer
  metaPriority : Int
  pickled : PickledState

/-- Translation of SklearnPolicy.persist.  The guard is Python truthiness
of self.model: an estimator object is truthy, None is falsy.  Result
some a means the three write calls ran producing artifacts a; none means
the code only emitted the raise_warning and wrote nothing. -/
def persist (p : PolicyState) : Option PersistedArtifacts :=
  match p.model with
  | some _ =>
    some { featurizerFiles := p.featurizer
           metaPriority := p.priority
           pickled := { model := p.model
                        cv := p.cv
                        paramGrid := p.paramGrid
                        scoring := p.scoring
                        labelEncoder := p.labelEncoder } }
  | none => none

/-- Result of TrackerFeaturizer.load(path): either a
MaxHistoryTrackerFeaturizer or a featurizer of some other concrete type
(recorded by its type name). -/
inductive LoadedFeaturizer where
  | maxHistoryF (f : Featurizer)
  | otherF (typeName : String)

/-- A policy directory as SklearnPolicy.load observes it: whether the path
exists, what TrackerFeaturizer.load returns, the metadata record, and the
unpickled state blob. -/
structure PolicyDir where
  pathExists : Bool
  loadedFeaturizer : LoadedFeaturizer
  metaPriority : Int
  pickled : PickledState

/-- Translation of SklearnPolicy.load: OSError when the path does not
exist; AssertionError when the loaded featurizer is not a
MaxHistoryTrackerFeaturizer; otherwise construct
cls(featurizer=featurizer, priority=meta["priority"]) — every other
attribute at its constructor default — and overwrite the pickled
attributes via vars(policy).update(state). -/
def load (d : PolicyDir) : Except PolicyError PolicyState :=
  if d.pathExists = false then
    .error .pathNotFound
  else
    match d.loadedFeaturizer with
    | .otherF _ => .error .featurizerTypeMismatch
    | .maxHistoryF f =>
      let policy := mkSklearnPolicy f d.metaPriority none none none
        "accuracy" [] true []
      .ok { policy with
            model := d.pickled.model
            cv := d.pickled.cv
            paramGrid := d.pickled.paramGrid
            scoring := d.pickled.scoring
            labelEncoder := d.pickled.labelEncoder }

/-- Reading back the directory that persist wrote, with the featurizer's
own persist/load round trip taken as faithful (its external contract). -/
def dirOfArtifacts (a : PersistedArtifacts) : PolicyDir :=
  { pathExists := true
    loadedFeaturizer := .maxHistoryF a.featurizerFiles
    metaPriority := a.metaPriority
    pickled := a.pickled }

/-- The GridSearchCV construction performed by _search_and_score, field by
field: GridSearchCV(model, param_grid=param_grid, cv=self.cv,
scoring="accuracy", verbose=1). -/
structure SearchSpec where
  estimator : SkModel
  paramGrid : ParamGrid
  cv : Option Nat
  scoring : String
  verbose : Nat

/-- External collaborators consumed by train: the featurized training data
(featurize_for_training), sklearn_shuffle, clone(model).fit,
GridSearchCV.fit (returning best_estimator_ and best_score_) and
set_params (model_architecture). -/
structure TrainEnv where
  featurized : RawBatch × List Nat
  shuffleFn : RawBatch × List Nat → RawBatch × List Nat
  fitModel : SkModel → List (List ℚ) → List Nat → SkModel
  gridSearch : SearchSpec → List (List ℚ) → List Nat → SkModel × ℚ
  setParams : SkModel → List (String × String) → SkModel

/-- Observable outcome of SklearnPolicy.train: the mutated policy, the
GridSearchCV configuration that was run (if any), and the cross-validation
score the code logs (if any). -/
structure TrainResult where
  policy : PolicyState
  searchRun : Option SearchSpec
  reportedScore : Option ℚ

/-- Translation of SklearnPolicy._search_and_score: build the GridSearchCV
with scoring hardcoded to the string accuracy, fit it, and return the
configuration together with best_estimator_ and best_score_. -/
def searchAndScore (cv : Option Nat) (env : TrainEnv) (model : SkModel)
    (Xt : List (List ℚ)) (yt : List Nat) (paramGrid : ParamGrid) :
    SearchSpec × SkModel × ℚ :=
  let spec : SearchSpec :=
    { estimator := model
      paramGrid := paramGrid
      cv := cv
      scoring := "accuracy"
      verbose := 1 }
  let r := env.gridSearch spec Xt yt
  (spec, r.1, r.2)

/-- Translation of SklearnPolicy.train: featurize, optionally shuffle,
merge kwargs into the stored train params, set_params on the model, fit
the label encoder, preprocess the features, encode the labels; then
either a single clone-and-fit (cv is None) or grid search via
_search_and_score (self.param_grid or an empty grid: a None or empty grid
both yield the empty grid, matching Python truthiness).  The resulting
estimator replaces self.model wholesale. -/
def train (p : PolicyState) (env : TrainEnv)
    (kwargs : List (String × String)) : Except PolicyError TrainResult :=
  match p.model with
  | none => .error .noModel
  | some m0 => do
    let xy := if p.shuffle then env.shuffleFn env.featurized
              else env.featurized
    let tp := p.trainParams ++ kwargs
    let model := env.setParams m0 tp
    let encoder := fitLabelEncoder xy.2
    let Xt ← preprocessData p.featurizer.maxHistory xy.1
    let yt := xy.2.map (transformLabel encoder)
    match p.cv with
    | none =>
      let fitted := env.fitModel model Xt yt
      let p1 := { p with model := some fitted, labelEncoder := encoder,
                         trainParams := tp }
      .ok { policy := p1, searchRun := none, reportedScore := none }
    | some _ =>
      let grid := p.paramGrid.getD []
      let sr := searchAndScore p.cv env model Xt yt grid
      let p1 := { p with model := some sr.2.1, labelEncoder := encoder,
                         trainParams := tp }
      .ok { policy := p1, searchRun := some sr.1,
            reportedScore := some sr.2.2 }

/-! Helper lemmas about the history padder. -/

/-- Sentinel vector for a per-turn list: the shape of the first real vector,
filled with -1 (np.ones((1, w)) * -1 in the source). -/
def sentinelOf (xs : List (List ℚ)) : List ℚ :=
  List.replicate (xs.headD []).length (-1 : ℚ)

lemma fillInFeatures_eq_pad (xs : List (List ℚ)) (m : Nat) (h : xs ≠ []) :
    fillInFeatures xs m =
      .ok (List.replicate (m - xs.length) (sentinelOf xs) ++ xs) := by
  cases xs with
  | nil => exact absurd rfl h
  | cons v t =>
    by_cases hm : (v :: t).length = m
    · rw [fillInFeatures.eq_def, if_pos hm, ← hm, Nat.sub_self]
      simp
    · rw [fillInFeatures.eq_def, if_neg hm]
      simp [sentinelOf]

lemma length_pad (xs : List (List ℚ)) (m : Nat) (h : xs.length ≤ m) :
    (List.replicate (m - xs.length) (sentinelOf xs) ++ xs).length = m := by
  simp only [List.length_append, List.length_replicate]
  omega

lemma fillInFeatures_exact (xs : List (List ℚ)) :
    fillInFeatures xs xs.length = .ok xs := by
  rw [fillInFeatures.eq_def, if_pos rfl]

lemma fillInFeatures_unchanged (xs : List (List ℚ)) (m : Nat)
    (h : m ≤ xs.length) (hne : xs ≠ []) : fillInFeatures xs m = .ok xs := by
  rw [fillInFeatures_eq_pad xs m hne]
  have h0 : m - xs.length = 0 := by omega
  simp [h0]

lemma pad_widths (xs : List (List ℚ)) (m W : Nat) (hne : xs ≠ [])
    (hW : ∀ v ∈ xs, v.length = W) :
    ∀ v ∈ List.replicate (m - xs.length) (sentinelOf xs) ++ xs,
      v.length = W := by
  intro v hv
  rcases List.mem_append.mp hv with hv | hv
  · have hveq := List.eq_of_mem_replicate hv
    subst hveq
    cases xs with
    | nil => exact absurd rfl hne
    | cons a t => simpa [sentinelOf] using hW a (by simp)
  · exact hW v hv

/-- Claim C3: for every non-empty per-turn list, a list shorter than
max_length comes back as exactly max_length vectors, the missing ones
prepended as sentinels shaped like the first real vector and filled with
-1 with the genuine turns in order at the tail; a list already at or above
max_length is returned unchanged, never truncated. -/
theorem C3_fill_in_features_pads_or_identity (xs : List (List ℚ)) (m : Nat)
    (h : xs ≠ []) :
    (xs.length < m →
        fillInFeatures xs m =
          .ok (List.replicate (m - xs.length) (sentinelOf xs) ++ xs) ∧
        (List.replicate (m - xs.length) (sentinelOf xs) ++ xs).length = m) ∧
    (m ≤ xs.length → fillInFeatures xs m = .ok xs) := by
  constructor
  · intro hlt
    exact ⟨fillInFeatures_eq_pad xs m h, length_pad xs m (Nat.le_of_lt hlt)⟩
  · intro hle
    exact fillInFeatures_unchanged xs m hle h

/-- Witness for C3 at a concrete input: a single 2-wide turn padded to
length 3 gains two sentinel vectors in front; at max_length 1 it is
returned unchanged. -/
theorem C3_fill_in_features_witness :
    (([[(1 : ℚ), 2]] : List (List ℚ)) ≠ [] ∧
      fillInFeatures [[(1 : ℚ), 2]] 3 =
        .ok [[-1, -1], [-1, -1], [(1 : ℚ), 2]]) ∧
    fillInFeatures [[(1 : ℚ), 2]] 1 = .ok [[(1 : ℚ), 2]] := by
  have h := C3_fill_in_features_pads_or_identity [[(1 : ℚ), 2]] 3 (by decide)
  have h1 := C3_fill_in_features_pads_or_identity [[(1 : ℚ), 2]] 1 (by decide)
  refine ⟨⟨by decide, ?_⟩, h1.2 (by decide)⟩
  rw [(h.1 (by decide)).1]
  rfl

/-- Claim C4 counterexample: with target max_length 0 the padder does not
fail on the empty list; the branch comparing the input length with
max_length returns the empty list unchanged, so the claimed failure for
every target max_length is refuted at max_length = 0. -/
theorem C4_empty_input_counterexample :
    fillInFeatures ([] : List (List ℚ)) 0 = .ok [] ∧
    fillInFeatures ([] : List (List ℚ)) 0 ≠ .error .invalidFeatureShape := by
  constructor
  · rfl
  · intro hcon
    simp [fillInFeatures] at hcon

/-- Claim C4 as amended: calling the padder with an empty per-turn list
fails with the InvalidFeatureShapeError abstraction (the IndexError from
reading the shape of the first vector) for every nonzero target
max_length; at max_length = 0 the empty list is returned unchanged. -/
theorem C4_empty_input_rejected_amended (m : Nat) (h : m ≠ 0) :
    fillInFeatures ([] : List (List ℚ)) m = .error .invalidFeatureShape := by
  rw [fillInFeatures.eq_def, if_neg]
  simpa using Ne.symm h

/-- Witness for the amended C4 at the concrete max_length 5. -/
theorem C4_empty_input_rejected_witness :
    (5 : Nat) ≠ 0 ∧
      fillInFeatures ([] : List (List ℚ)) 5 = .error .invalidFeatureShape :=
  ⟨by decide, C4_empty_input_rejected_amended 5 (by decide)⟩

/-- Claim C9: padding is idempotent.  A non-empty list already of length
max_length is returned unchanged, and for a non-empty list of length at
most max_length, padding the padded output again with the same max_length
returns it unchanged. -/
theorem C9_padding_idempotent (xs : List (List ℚ)) (m : Nat) (h : xs ≠ []) :
    (xs.length = m → fillInFeatures xs m = .ok xs) ∧
    (xs.length ≤ m → ∀ ys, fillInFeatures xs m = .ok ys →
        fillInFeatures ys m = .ok ys) := by
  constructor
  · intro he
    rw [← he]
    exact fillInFeatures_exact xs
  · intro hle ys hys
    rw [fillInFeatures_eq_pad xs m h] at hys
    have hyseq := Except.ok.inj hys
    subst hyseq
    have hlen := length_pad xs m hle
    have hex := fillInFeatures_exact
      (List.replicate (m - xs.length) (sentinelOf xs) ++ xs)
    rwa [hlen] at hex

/-- Witness for C9 at a concrete input: a 1-wide single-turn list is fixed
by padding at max_length 1, and padding twice to length 3 equals padding
once. -/
theorem C9_padding_idempotent_witness :
    (([[(4 : ℚ)]] : List (List ℚ)) ≠ [] ∧
      fillInFeatures [[(4 : ℚ)]] 1 = .ok [[(4 : ℚ)]]) ∧
    fillInFeatures [[-1], [-1], [(4 : ℚ)]] 3 =
      .ok [[-1], [-1], [(4 : ℚ)]] := by
  have h := C9_padding_idempotent [[(4 : ℚ)]] 1 (by decide)
  have h3 := C9_padding_idempotent [[(4 : ℚ)]] 3 (by decide)
  exact ⟨⟨by decide, h.1 rfl⟩, h3.2 (by decide) _ rfl⟩

/-! Helper lemmas about the reconciliation write loop. -/

lemma foldl_set_length (ps : List (Nat × ℚ)) (acc : List ℚ) :
    (ps.foldl (fun a pr => a.set pr.1 pr.2) acc).length = acc.length := by
  induction ps generalizing acc with
  | nil => rfl
  | cons p rest ih => rw [List.foldl_cons, ih, List.length_set]

lemma get?_set_of_ne (l : List ℚ) (i j : Nat) (v : ℚ) (h : i ≠ j) :
    (l.set i v).get? j = l.get? j := by
  induction l generalizing i j with
  | nil => simp
  | cons a t ih =>
    cases i with
    | zero =>
      cases j with
      | zero => exact absurd rfl h
      | succ k => rfl
    | succ i2 =>
      cases j with
      | zero => rfl
      | succ k => simpa [List.set] using ih i2 k (by omega)

lemma get?_set_self (l : List ℚ) (i : Nat) (v : ℚ) (h : i < l.length) :
    (l.set i v).get? i = some v := by
  induction l generalizing i with
  | nil => simp at h
  | cons a t ih =>
    cases i with
    | zero => rfl
    | succ i2 => simpa [List.set] using ih i2 (by simpa using h)

lemma foldl_set_get?_of_notmem (ps : List (Nat × ℚ)) (acc : List ℚ) (j : Nat)
    (h : ∀ pr ∈ ps, pr.1 ≠ j) :
    (ps.foldl (fun a pr => a.set pr.1 pr.2) acc).get? j = acc.get? j := by
  induction ps generalizing acc with
  | nil => rfl
  | cons p rest ih =>
    rw [List.foldl_cons, ih _ (fun pr hpr => h pr (by simp [hpr]))]
    exact get?_set_of_ne acc p.1 j p.2 (h p (by simp))

lemma foldl_set_get?_of_mem (ps : List (Nat × ℚ)) (pr : Nat × ℚ) :
    ∀ acc : List ℚ, (ps.map Prod.fst).Nodup → pr ∈ ps → pr.1 < acc.length →
      (ps.foldl (fun a q => a.set q.1 q.2) acc).get? pr.1 = some pr.2 := by
  induction ps with
  | nil =>
    intro acc _ hmem _
    simp at hmem
  | cons p rest ih =>
    intro acc hnd hmem hlt
    rw [List.map_cons, List.nodup_cons] at hnd
    rw [List.foldl_cons]
    rcases List.mem_cons.mp hmem with heq | hmem2
    · subst heq
      rw [foldl_set_get?_of_notmem]
      · exact get?_set_self acc pr.1 pr.2 hlt
      · intro q hq hq1
        exact hnd.1 (hq1 ▸ List.mem_map_of_mem Prod.fst hq)
    · exact ih (acc.set p.1 p.2) hnd.2 hmem2
        (by rw [List.length_set]; exact hlt)

lemma getD_eq_get?_getD (l : List Nat) (n : Nat) :
    l.getD n 0 = (l.get? n).getD 0 := by
  induction l generalizing n with
  | nil => cases n <;> rfl
  | cons a t ih =>
    cases n with
    | zero => rfl
    | succ k => exact ih k

lemma map_getD_range (l : List Nat) :
    (List.range l.length).map (fun c => l.getD c 0) = l := by
  apply List.ext_get?
  intro n
  rw [List.get?_map]
  by_cases hn : n < l.length
  · rw [List.get?_range hn]
    simp only [Option.map_some']
    rw [getD_eq_get?_getD, List.get?_eq_get hn]
    rfl
  · have h1 : (List.range l.length).get? n = none := by
      rw [List.get?_eq_none]
      simpa using Nat.le_of_not_lt hn
    rw [h1, List.get?_eq_none.mpr (Nat.le_of_not_lt hn)]
    rfl

lemma exceptOk_bind (a : α) (f : α → Except PolicyError β) :
    (Except.ok a >>= f) = f a := rfl

lemma get?_replicate_lt (n j : Nat) (h : j < n) :
    (List.replicate n (0 : ℚ)).get? j = some 0 := by
  induction n generalizing j with
  | zero => omega
  | succ k ih =>
    cases j with
    | zero => rfl
    | succ j2 => simpa [List.replicate_succ] using ih j2 (by omega)

/-- Claim C1: the reconciliation step returns a vector of length
domain.num_actions in which every action label never seen in training is
exactly 0, every seen label carries the predicted probability of its code
at the decoded index, and the seen entries sum to the original probability
mass.  The hypotheses are the invariants of a trained policy: the fitted
LabelEncoder classes are distinct action indices inside the action space,
and the model emits one probability per encoder class. -/
theorem C1_reconciliation_superset (classes : List Nat) (yp : List ℚ)
    (rest : List (List ℚ)) (numActions : Nat)
    (hnd : classes.Nodup) (hb : ∀ c ∈ classes, c < numActions)
    (hlen : yp.length = classes.length) :
    postprocessPrediction classes (yp :: rest) numActions =
      .ok (yFilled classes yp numActions) ∧
    (yFilled classes yp numActions).length = numActions ∧
    (∀ j, j < numActions → j ∉ classes →
      (yFilled classes yp numActions).get? j = some 0) ∧
    (∀ pr ∈ classes.zip yp,
      (yFilled classes yp numActions).get? pr.1 = some pr.2) ∧
    ((classes.zip yp).map
        (fun pr => ((yFilled classes yp numActions).get? pr.1).getD 0)).sum
      = yp.sum := by
  have hid : inverseTransform classes (List.range yp.length) = .ok classes := by
    rw [hlen]
    unfold inverseTransform
    rw [if_pos (by simp [List.all_eq_true, List.mem_range]), map_getD_range]
  have hall : (classes.all fun i => decide (i < numActions)) = true := by
    simp only [List.all_eq_true, decide_eq_true_eq]
    exact hb
  have hfst : (classes.zip yp).map Prod.fst = classes :=
    List.map_fst_zip classes yp (by omega)
  have hsnd : (classes.zip yp).map Prod.snd = yp :=
    List.map_snd_zip classes yp (by omega)
  have hseen : ∀ pr ∈ classes.zip yp,
      (yFilled classes yp numActions).get? pr.1 = some pr.2 := by
    intro pr hpr
    unfold yFilled
    apply foldl_set_get?_of_mem
    · rw [hfst]
      exact hnd
    · exact hpr
    · rw [List.length_replicate]
      exact hb pr.1 (List.mem_zip hpr).1
  refine ⟨?_, ?_, ?_, hseen, ?_⟩
  · simp only [postprocessPrediction, hid, exceptOk_bind]
    rw [if_pos hall]
  · unfold yFilled
    rw [foldl_set_length, List.length_replicate]
  · intro j hj hnotin
    unfold yFilled
    rw [foldl_set_get?_of_notmem]
    · exact get?_replicate_lt numActions j hj
    · intro pr hpr hpr1
      exact hnotin (hpr1 ▸ (List.mem_zip hpr).1)
  · calc ((classes.zip yp).map
          (fun pr => ((yFilled classes yp numActions).get? pr.1).getD 0)).sum
        = ((classes.zip yp).map Prod.snd).sum := by
          refine congrArg List.sum (List.map_congr_left ?_)
          intro pr hpr
          rw [hseen pr hpr]
          rfl
      _ = yp.sum := by rw [hsnd]

/-- Witness for C1 at a concrete trained state: classes 0 and 2 inside a
4-action domain; the reconciled vector places the two predicted masses at
indices 0 and 2 and zero-fills indices 1 and 3 (integer-valued rationals
keep the evaluation kernel-reducible). -/
theorem C1_reconciliation_witness :
    (([0, 2] : List Nat).Nodup ∧ (∀ c ∈ ([0, 2] : List Nat), c < 4) ∧
      [(5 : ℚ), 3].length = ([0, 2] : List Nat).length) ∧
    postprocessPrediction [0, 2] [[(5 : ℚ), 3]] 4 =
      .ok (yFilled [0, 2] [(5 : ℚ), 3] 4) ∧
    yFilled [0, 2] [(5 : ℚ), 3] 4 = [5, 0, 3, 0] :=
  ⟨⟨by decide, by decide, rfl⟩,
   (C1_reconciliation_superset [0, 2] [(5 : ℚ), 3] [] 4 (by decide)
      (by decide) rfl).1,
   by decide⟩

/-! Helper lemmas for the feature assembler. -/

lemma mapOk_ok (f : α → Except PolicyError β) (l : List α) (P : β → Prop)
    (h : ∀ x ∈ l, ∃ y, f x = .ok y ∧ P y) :
    ∃ ys, mapOk f l = .ok ys ∧ ys.length = l.length ∧ ∀ y ∈ ys, P y := by
  induction l with
  | nil => exact ⟨[], rfl, rfl, by simp⟩
  | cons x xs ih =>
    obtain ⟨y, hy, hPy⟩ := h x (by simp)
    obtain ⟨ys, hys, hlen, hP⟩ := ih (fun a ha => h a (by simp [ha]))
    refine ⟨y :: ys, ?_, by simp [hlen], ?_⟩
    · rw [mapOk, hy, exceptOk_bind, hys, exceptOk_bind]
      rfl
    · intro z hz
      rcases List.mem_cons.mp hz with heq | hz2
      · exact heq ▸ hPy
      · exact hP z hz2

lemma flatten_length_of_widths (ys : List (List ℚ)) (W : Nat)
    (h : ∀ v ∈ ys, v.length = W) : ys.flatten.length = ys.length * W := by
  induction ys with
  | nil => simp
  | cons a t ih =>
    have ha := h a (by simp)
    have ht := ih (fun v hv => h v (by simp [hv]))
    simp only [List.flatten_cons, List.length_append, List.length_cons, ha, ht]
    ring

lemma fillInFeatures_shape (row : List (List ℚ)) (M W : Nat)
    (hne : row ≠ []) (hle : row.length ≤ M) (hW : ∀ v ∈ row, v.length = W) :
    ∃ ys, fillInFeatures row M = .ok ys ∧ ys.length = M ∧
      ∀ v ∈ ys, v.length = W := by
  refine ⟨_, fillInFeatures_eq_pad row M hne, length_pad row M hle,
    pad_widths row M W hne hW⟩

lemma zipWith_append_length (as bs : List (List ℚ)) (la lb : Nat)
    (ha : ∀ a ∈ as, a.length = la) (hb : ∀ b ∈ bs, b.length = lb) :
    ∀ r ∈ List.zipWith (fun a b => a ++ b) as bs, r.length = la + lb := by
  induction as generalizing bs with
  | nil => simp
  | cons a t ih =>
    cases bs with
    | nil => simp
    | cons b u =>
      intro r hr
      rw [List.zipWith_cons_cons] at hr
      rcases List.mem_cons.mp hr with heq | hr2
      · subst heq
        simp [ha a (by simp), hb b (by simp)]
      · exact ih u (fun x hx => ha x (by simp [hx]))
          (fun x hx => hb x (by simp [hx])) r hr2

lemma collectFeatures_shape (maxHistory : Option Nat) (X : RawBatch)
    (W M : Nat) (hX : X ≠ [])
    (hM : effectiveMaxLength maxHistory X = .ok M)
    (hW : ∀ row ∈ X, ∀ t ∈ row, t.intent.length = W ∧
      t.prevAction.length = W ∧ t.slots.length = W)
    (hlen : ∀ row ∈ X, 0 < row.length ∧ row.length ≤ M) :
    ∃ f, collectFeatures maxHistory X = .ok f ∧
      f.1.length = X.length ∧ f.2.1.length = X.length ∧
      f.2.2.length = X.length ∧
      (∀ r ∈ f.1, r.length = M * W) ∧
      (∀ r ∈ f.2.1, r.length = M * W) ∧
      (∀ r ∈ f.2.2, r.length = M * W) := by
  have hrows : ∀ row ∈ X, ∃ y : List ℚ × List ℚ × List ℚ,
      (do
        let si ← fillInFeatures (row.map (fun t => t.intent)) M
        let sp ← fillInFeatures (row.map (fun t => t.prevAction)) M
        let ss ← fillInFeatures (row.map (fun t => t.slots)) M
        pure (si.flatten, sp.flatten, ss.flatten) :
        Except PolicyError (List ℚ × List ℚ × List ℚ)) = .ok y ∧
      (y.1.length = M * W ∧ y.2.1.length = M * W ∧
       y.2.2.length = M * W) := by
    intro row hrow
    obtain ⟨h0, hle⟩ := hlen row hrow
    have hrne : row ≠ [] := List.length_pos.mp h0
    have hne1 : row.map (fun t => t.intent) ≠ [] := by
      simpa [List.map_eq_nil] using hrne
    have hne2 : row.map (fun t => t.prevAction) ≠ [] := by
      simpa [List.map_eq_nil] using hrne
    have hne3 : row.map (fun t => t.slots) ≠ [] := by
      simpa [List.map_eq_nil] using hrne
    obtain ⟨si, hsi, hsilen, hsiW⟩ :=
      fillInFeatures_shape (row.map (fun t => t.intent))
        M W hne1 (by simpa using hle)
        (by
          intro v hv
          obtain ⟨t, ht, hteq⟩ := List.mem_map.mp hv
          exact hteq ▸ (hW row hrow t ht).1)
    obtain ⟨sp, hsp, hsplen, hspW⟩ :=
      fillInFeatures_shape (row.map (fun t => t.prevAction))
        M W hne2 (by simpa using hle)
        (by
          intro v hv
          obtain ⟨t, ht, hteq⟩ := List.mem_map.mp hv
          exact hteq ▸ (hW row hrow t ht).2.1)
    obtain ⟨ss, hss, hsslen, hssW⟩ :=
      fillInFeatures_shape (row.map (fun t => t.slots))
        M W hne3 (by simpa using hle)
        (by
          intro v hv
          obtain ⟨t, ht, hteq⟩ := List.mem_map.mp hv
          exact hteq ▸ (hW row hrow t ht).2.2)
    refine ⟨(si.flatten, sp.flatten, ss.flatten), ?_, ?_, ?_, ?_⟩
    · rw [hsi, exceptOk_bind, hsp, exceptOk_bind, hss, exceptOk_bind]
      rfl
    · rw [flatten_length_of_widths si W hsiW, hsilen]
    · rw [flatten_length_of_widths sp W hspW, hsplen]
    · rw [flatten_length_of_widths ss W hssW, hsslen]
  obtain ⟨rows, hrowsEq, hrowsLen, hrowsP⟩ :=
    mapOk_ok _ X _ hrows
  have hrne : rows ≠ [] := by
    intro h0
    rw [h0] at hrowsLen
    exact hX (List.length_eq_zero.mp hrowsLen.symm)
  refine ⟨(rows.map (fun r => r.1), rows.map (fun r => r.2.1),
            rows.map (fun r => r.2.2)), ?_, ?_, ?_, ?_, ?_, ?_, ?_⟩
  · simp only [collectFeatures]
    rw [hM, exceptOk_bind, hrowsEq, exceptOk_bind]
    cases rows with
    | nil => exact absurd rfl hrne
    | cons a t => rfl
  · rw [List.length_map, hrowsLen]
  · rw [List.length_map, hrowsLen]
  · rw [List.length_map, hrowsLen]
  · intro r hr
    obtain ⟨y, hy, hyeq⟩ := List.mem_map.mp hr
    exact hyeq ▸ (hrowsP y hy).1
  · intro r hr
    obtain ⟨y, hy, hyeq⟩ := List.mem_map.mp hr
    exact hyeq ▸ (hrowsP y hy).2.1
  · intro r hr
    obtain ⟨y, hy, hyeq⟩ := List.mem_map.mp hr
    exact hyeq ▸ (hrowsP y hy).2.2

/-- Claim C7 as amended: for a non-empty batch (the code raises ValueError
on an empty one, from max() or np.vstack) whose effective max_length
evaluates to M, M equals the configured maximum history when it is present
and nonzero (Python or treats 0 as falsy and falls back to the batch
maximum), and otherwise the maximum turn count observed in the batch;
under the trained-batch invariants (every history non-empty and within M,
every per-turn field of width W) the assembled matrix X has one row per
history and every row has 3 * M * W columns, the intent, previous-action
and slot blocks concatenated in that order. -/
theorem C7_assembled_shape_amended (maxHistory : Option Nat) (X : RawBatch)
    (W M : Nat) (hX : X ≠ [])
    (hM : effectiveMaxLength maxHistory X = .ok M)
    (hW : ∀ row ∈ X, ∀ t ∈ row, t.intent.length = W ∧
      t.prevAction.length = W ∧ t.slots.length = W)
    (hlen : ∀ row ∈ X, 0 < row.length ∧ row.length ≤ M) :
    (∀ m, maxHistory = some m → m ≠ 0 → M = m) ∧
    (maxHistory = none → getMaxDialogueLength X = .ok M) ∧
    (∃ Xt, preprocessData maxHistory X = .ok Xt ∧ Xt.length = X.length ∧
      ∀ r ∈ Xt, r.length = 3 * (M * W)) := by
  refine ⟨?_, ?_, ?_⟩
  · intro m hm hm0
    rw [hm] at hM
    simp only [effectiveMaxLength] at hM
    rw [if_neg hm0] at hM
    exact (Except.ok.inj hM).symm
  · intro hm
    rw [hm] at hM
    exact hM
  · obtain ⟨f, hf, h1, h2, h3, m1, m2, m3⟩ :=
      collectFeatures_shape maxHistory X W M hX hM hW hlen
    refine ⟨List.zipWith (fun a b => a ++ b)
        (List.zipWith (fun a b => a ++ b) f.1 f.2.1) f.2.2, ?_, ?_, ?_⟩
    · simp only [preprocessData]
      rw [hf, exceptOk_bind]
      rfl
    · rw [List.length_zipWith, List.length_zipWith, h1, h2, h3]
      simp
    · intro r hr
      have hmid := zipWith_append_length f.1 f.2.1
        (M * W) (M * W) m1 m2
      have hall := zipWith_append_length _ f.2.2
        (M * W + M * W) (M * W) hmid m3 r hr
      rw [hall]
      ring

/-- A concrete turn with 1-wide fields, used by the concrete scenarios. -/
def exampleTurn : TurnRow :=
  { intent := [1], prevAction := [0], slots := [0] }

/-- Claim C7 counterexample: with a configured maximum history of 0 and a
batch holding one 2-turn history, the code uses the batch maximum 2, not
the configured value 0, because Python or treats the integer 0 as falsy;
the claim as stated requires the effective max_length to be the configured
value whenever one is present. -/
theorem C7_max_history_zero_counterexample :
    effectiveMaxLength (some 0) [[exampleTurn, exampleTurn]] = .ok 2 ∧
    effectiveMaxLength (some 0) [[exampleTurn, exampleTurn]] ≠ .ok 0 := by
  constructor
  · rfl
  · intro h
    exact absurd (Except.ok.inj h) (by decide)

/-- Witness for the amended C7 on a concrete batch: two histories of
lengths 1 and 2 with 1-wide fields under a configured maximum history of
2 (so the effective max_length evaluates to 2); the assembled matrix has
2 rows of 3 * 2 * 1 = 6 entries each. -/
theorem C7_assembled_shape_witness :
    (([[exampleTurn], [exampleTurn, exampleTurn]] : RawBatch) ≠ [] ∧
      effectiveMaxLength (some 2)
        [[exampleTurn], [exampleTurn, exampleTurn]] = .ok 2 ∧
      (∀ row ∈ [[exampleTurn], [exampleTurn, exampleTurn]], ∀ t ∈ row,
        t.intent.length = 1 ∧ t.prevAction.length = 1 ∧
        t.slots.length = 1) ∧
      (∀ row ∈ [[exampleTurn], [exampleTurn, exampleTurn]],
        0 < row.length ∧ row.length ≤ 2)) ∧
    (∃ Xt, preprocessData (some 2) [[exampleTurn], [exampleTurn, exampleTurn]]
        = .ok Xt ∧
      Xt.length = ([[exampleTurn], [exampleTurn, exampleTurn]] : RawBatch).length ∧
      ∀ r ∈ Xt, r.length = 3 * (2 * 1)) :=
  ⟨⟨by decide, rfl, by decide, by decide⟩,
   (C7_assembled_shape_amended (some 2)
      [[exampleTurn], [exampleTurn, exampleTurn]] 1 2
      (by decide) rfl (by decide) (by decide)).2.2⟩

/-- A concrete MaxHistoryTrackerFeaturizer used by the concrete scenarios:
max_history 1, producing a single 1-turn history for any tracker. -/
def exampleFeaturizer : Featurizer :=
  { maxHistory := some 1
    createX := fun _ _ => [[exampleTurn]] }

/-- A freshly constructed, never trained policy:
SklearnPolicy(featurizer=exampleFeaturizer, priority=1) with every other
argument left at its default. -/
def untrainedPolicy : PolicyState :=
  mkSklearnPolicy exampleFeaturizer 1 none none none "accuracy" [] true []

/-- Claim C2 evaluated on the code: persist on a policy whose model was
never fit takes the write branch, not the warning branch, because init
replaced the absent model with the truthy default LogisticRegression, so
the featurizer files, the metadata record and the pickled state (holding
the unfitted default model) are all written.  This contradicts the claim
and the stated intent of the unreachable warning branch. -/
theorem C2_untrained_persist_writes :
    persist untrainedPolicy =
      some { featurizerFiles := exampleFeaturizer
             metaPriority := 1
             pickled := { model := some defaultModel
                          cv := none
                          paramGrid := none
                          scoring := "accuracy"
                          labelEncoder := [] } } := rfl

/-- Claim C8: load fails with the PathNotFoundError abstraction (OSError)
whenever the directory does not exist, and, once the path exists, with the
FeaturizerTypeMismatchError abstraction (AssertionError) whenever the
reconstructed featurizer is not a MaxHistoryTrackerFeaturizer; both are
surfaced to the caller as errors. -/
theorem C8_load_failure_modes (d : PolicyDir) :
    (d.pathExists = false → load d = .error .pathNotFound) ∧
    (∀ n, d.pathExists = true → d.loadedFeaturizer = .otherF n →
      load d = .error .featurizerTypeMismatch) := by
  constructor
  · intro h
    simp [load, h]
  · intro n h1 h2
    simp [load, h1, h2]

/-- An empty pickled state blob for the concrete load-failure scenarios. -/
def emptyPickled : PickledState :=
  { model := none, cv := none, paramGrid := none, scoring := "accuracy",
    labelEncoder := [] }

/-- A directory whose path does not exist. -/
def missingDir : PolicyDir :=
  { pathExists := false
    loadedFeaturizer := .maxHistoryF exampleFeaturizer
    metaPriority := 1
    pickled := emptyPickled }

/-- An existing directory whose featurizer files reconstruct a featurizer
of the wrong concrete type. -/
def wrongKindDir : PolicyDir :=
  { pathExists := true
    loadedFeaturizer := .otherF "FullDialogueTrackerFeaturizer"
    metaPriority := 1
    pickled := emptyPickled }

/-- Witness for C8 at two concrete directories. -/
theorem C8_load_failure_modes_witness :
    load missingDir = .error .pathNotFound ∧
    load wrongKindDir = .error .featurizerTypeMismatch :=
  ⟨(C8_load_failure_modes missingDir).1 rfl,
   (C8_load_failure_modes wrongKindDir).2 "FullDialogueTrackerFeaturizer"
     rfl rfl⟩

/-- Claim C6: loading the artifacts written by persist yields a policy
whose predicted action-probability vector on every tracker and domain is
identical to the prediction of the original policy (exact equality in the
rational model; the pickle and featurizer round trips are modelled as
faithful per their external contracts). -/
theorem C6_persist_load_round_trip (p : PolicyState) (a : PersistedArtifacts)
    (h : persist p = some a) :
    ∃ q, load (dirOfArtifacts a) = .ok q ∧
      ∀ tracker domain,
        predictActionProbabilities q tracker domain =
          predictActionProbabilities p tracker domain := by
  cases hm : p.model with
  | none => simp [persist, hm] at h
  | some m =>
    simp only [persist, hm, Option.some.injEq] at h
    subst h
    refine ⟨_, rfl, ?_⟩
    intro tracker domain
    simp [predictActionProbabilities, load, dirOfArtifacts, mkSklearnPolicy,
      hm]

/-- A concrete fitted model for the round-trip scenario. -/
def exampleModel : SkModel :=
  { predictProba := fun _ => [[(5 : ℚ), 3]]
    params := [] }

/-- A concrete trained policy: fitted model and fitted label encoder. -/
def trainedPolicy : PolicyState :=
  { featurizer := exampleFeaturizer
    priority := 1
    model := some exampleModel
    paramGrid := none
    cv := none
    scoring := "accuracy"
    labelEncoder := [0, 2]
    shuffle := true
    trainParams := [] }

/-- The artifacts persist writes for trainedPolicy. -/
def trainedArtifacts : PersistedArtifacts :=
  { featurizerFiles := exampleFeaturizer
    metaPriority := 1
    pickled := { model := some exampleModel
                 cv := none
                 paramGrid := none
                 scoring := "accuracy"
                 labelEncoder := [0, 2] } }

/-- Witness for C6 at the concrete trained policy. -/
theorem C6_persist_load_round_trip_witness :
    persist trainedPolicy = some trainedArtifacts ∧
    ∃ q, load (dirOfArtifacts trainedArtifacts) = .ok q ∧
      ∀ tracker domain,
        predictActionProbabilities q tracker domain =
          predictActionProbabilities trainedPolicy tracker domain :=
  ⟨rfl, C6_persist_load_round_trip trainedPolicy trainedArtifacts rfl⟩

/-- Claim C10 as amended: loading the persisted artifacts restores model,
cv, param_grid, scoring and label_encoder from the pickled state, and in
addition restores the featurizer from its own files and the priority from
the metadata record (these two are not reset to construction defaults);
the remaining constructor-settable state — the shuffle flag and the extra
train-parameter overrides — is reset to its construction default
(shuffle true, no train params) regardless of the persisted instance. -/
theorem C10_load_restores_amended (p : PolicyState) (a : PersistedArtifacts)
    (h : persist p = some a) :
    ∃ q, load (dirOfArtifacts a) = .ok q ∧
      q.model = p.model ∧ q.cv = p.cv ∧ q.paramGrid = p.paramGrid ∧
      q.scoring = p.scoring ∧ q.labelEncoder = p.labelEncoder ∧
      q.featurizer = p.featurizer ∧ q.priority = p.priority ∧
      q.shuffle = true ∧ q.trainParams = [] := by
  cases hm : p.model with
  | none => simp [persist, hm] at h
  | some m =>
    simp only [persist, hm, Option.some.injEq] at h
    subst h
    exact ⟨_, rfl, rfl, rfl, rfl, rfl, rfl, rfl, rfl, rfl, rfl⟩

/-- A persisted policy with a non-default priority 7, shuffle disabled and
extra train parameters. -/
def persistedPolicy7 : PolicyState :=
  { featurizer := exampleFeaturizer
    priority := 7
    model := some defaultModel
    paramGrid := none
    cv := none
    scoring := "accuracy"
    labelEncoder := []
    shuffle := false
    trainParams := [("epochs", "5")] }

/-- The same policy persisted with priority 3. -/
def persistedPolicy3 : PolicyState := { persistedPolicy7 with priority := 3 }

/-- Claim C10 counterexample: the loaded priority tracks the value stored
in the metadata record (7 and 3 respectively), so the priority — a
constructor-settable field outside the five pickled ones — is not reset to
a construction default regardless of its persisted value, contradicting
the claim as stated. -/
theorem C10_priority_counterexample :
    ((persist persistedPolicy7).map (fun a =>
        (load (dirOfArtifacts a)).map (fun q => q.priority))) =
      some (.ok 7) ∧
    ((persist persistedPolicy3).map (fun a =>
        (load (dirOfArtifacts a)).map (fun q => q.priority))) =
      some (.ok 3) ∧
    (7 : Int) ≠ 3 :=
  ⟨rfl, rfl, by decide⟩

/-- The artifacts persist writes for persistedPolicy7. -/
def artifacts7 : PersistedArtifacts :=
  { featurizerFiles := exampleFeaturizer
    metaPriority := 7
    pickled := { model := some defaultModel
                 cv := none
                 paramGrid := none
                 scoring := "accuracy"
                 labelEncoder := [] } }

/-- Witness for the amended C10: loading the artifacts of
persistedPolicy7 restores its pickled fields, featurizer and priority,
and resets shuffle (persisted false) to true and the train params
(persisted non-empty) to empty. -/
theorem C10_load_restores_witness :
    persist persistedPolicy7 = some artifacts7 ∧
    ∃ q, load (dirOfArtifacts artifacts7) = .ok q ∧
      q.model = persistedPolicy7.model ∧ q.cv = persistedPolicy7.cv ∧
      q.paramGrid = persistedPolicy7.paramGrid ∧
      q.scoring = persistedPolicy7.scoring ∧
      q.labelEncoder = persistedPolicy7.labelEncoder ∧
      q.featurizer = persistedPolicy7.featurizer ∧
      q.priority = persistedPolicy7.priority ∧
      q.shuffle = true ∧ q.trainParams = [] :=
  ⟨rfl, C10_load_restores_amended persistedPolicy7 artifacts7 rfl⟩

lemma exceptError_bind (e : PolicyError) (f : α → Except PolicyError β) :
    ((Except.error e : Except PolicyError α) >>= f) = .error e := rfl

/-- Claim C5 as amended: whenever a cross-validation fold count is
configured, a successful training run performs a grid search over the
given hyperparameter grid (an absent or empty grid becoming the empty
grid) with the configured fold count — but with the scoring strategy
hardcoded to the string accuracy, ignoring the policy's scoring
parameter — and installs the best-scoring estimator returned by the
search as the new model while reporting its best cross-validated
score. -/
theorem C5_grid_search_amended (p : PolicyState) (env : TrainEnv)
    (kwargs : List (String × String)) (k : Nat) (r : TrainResult)
    (hcv : p.cv = some k) (h : train p env kwargs = .ok r) :
    ∃ m0 xy Xt spec,
      p.model = some m0 ∧
      xy = (if p.shuffle then env.shuffleFn env.featurized
            else env.featurized) ∧
      preprocessData p.featurizer.maxHistory xy.1 = .ok Xt ∧
      r.searchRun = some spec ∧
      spec = { estimator := env.setParams m0 (p.trainParams ++ kwargs)
               paramGrid := p.paramGrid.getD []
               cv := some k
               scoring := "accuracy"
               verbose := 1 } ∧
      r.policy.model =
        some (env.gridSearch spec Xt
          (xy.2.map (transformLabel (fitLabelEncoder xy.2)))).1 ∧
      r.reportedScore =
        some (env.gridSearch spec Xt
          (xy.2.map (transformLabel (fitLabelEncoder xy.2)))).2 := by
  cases hm : p.model with
  | none =>
    simp [train, hm] at h
  | some m0 =>
    simp only [train, hm, hcv] at h
    cases hXt : preprocessData p.featurizer.maxHistory
        (if p.shuffle then env.shuffleFn env.featurized
         else env.featurized).1 with
    | error e =>
      rw [hXt, exceptError_bind] at h
      exact absurd h (by simp)
    | ok Xt =>
      rw [hXt, exceptOk_bind] at h
      have hr := Except.ok.inj h
      subst hr
      refine ⟨m0, _, Xt, _, rfl, rfl, hXt, rfl, rfl, ?_, ?_⟩
      · simp [searchAndScore, hcv]
      · simp [searchAndScore, hcv]

/-- A policy configured with cv = 3, a hyperparameter grid and the scoring
strategy f1 — the configuration whose scoring the claim says the grid
search uses. -/
def pC5 : PolicyState :=
  { featurizer := exampleFeaturizer
    priority := 1
    model := some defaultModel
    paramGrid := some [("C", ["1", "2"])]
    cv := some 3
    scoring := "f1"
    labelEncoder := []
    shuffle := false
    trainParams := [] }

/-- A concrete training environment: one 1-turn history labelled 0, with
identity collaborators and a grid search that returns its estimator with
best score 1. -/
def envC5 : TrainEnv :=
  { featurized := ([[exampleTurn]], [0])
    shuffleFn := fun xy => xy
    fitModel := fun m _ _ => m
    gridSearch := fun spec _ _ => (spec.estimator, 1)
    setParams := fun m _ => m }

/-- The GridSearchCV configuration the code builds when training pC5. -/
def specC5 : SearchSpec :=
  { estimator := defaultModel
    paramGrid := [("C", ["1", "2"])]
    cv := some 3
    scoring := "accuracy"
    verbose := 1 }

/-- The policy state after training pC5 in envC5. -/
def pC5trained : PolicyState :=
  { pC5 with
      model := some defaultModel
      labelEncoder := [0]
      trainParams := [] }

/-- The result of training pC5 in envC5. -/
def rC5 : TrainResult :=
  { policy := pC5trained
    searchRun := some specC5
    reportedScore := some 1 }

/-- Claim C5 counterexample: training pC5 (scoring configured as f1, cv
configured as 3) runs a grid search whose scoring field is the hardcoded
string accuracy, not the policy's configured scoring parameter, refuting
the claim that the search runs under the configured scoring strategy. -/
theorem C5_scoring_counterexample :
    train pC5 envC5 [] = .ok rC5 ∧
    rC5.searchRun = some specC5 ∧
    specC5.scoring = "accuracy" ∧
    pC5.scoring = "f1" ∧
    specC5.scoring ≠ pC5.scoring :=
  ⟨rfl, rfl, rfl, rfl, by decide⟩

/-- Witness for the amended C5 at the concrete training run of pC5. -/
theorem C5_grid_search_witness :
    pC5.cv = some 3 ∧ train pC5 envC5 [] = .ok rC5 ∧
    (∃ m0 xy Xt spec,
      pC5.model = some m0 ∧
      xy = (if pC5.shuffle then envC5.shuffleFn envC5.featurized
            else envC5.featurized) ∧
      preprocessData pC5.featurizer.maxHistory xy.1 = .ok Xt ∧
      rC5.searchRun = some spec ∧
      spec = { estimator := envC5.setParams m0 (pC5.trainParams ++ [])
               paramGrid := pC5.paramGrid.getD []
               cv := some 3
               scoring := "accuracy"
               verbose := 1 } ∧
      rC5.policy.model =
        some (envC5.gridSearch spec Xt
          (xy.2.map (transformLabel (fitLabelEncoder xy.2)))).1 ∧
      rC5.reportedScore =
        some (envC5.gridSearch spec Xt
          (xy.2.map (transformLabel (fitLabelEncoder xy.2)))).2) :=
  ⟨rfl, rfl, C5_grid_search_amended pC5 envC5 [] 3 rC5 rfl rfl⟩
